import Mathlib

/-!
Verification of the GPX track analyzer (`gpx_parser.py`).

Shallow embedding conventions:
* Python floats are modelled as exact numbers: coordinates and timestamps,
  which the script obtains by parsing decimal text, are `ℚ`; values produced
  by transcendental arithmetic (the haversine distance and everything derived
  from it) are `ℝ`.
* A timestamp is the number of seconds of the instant (the script stores
  `datetime` objects and only ever compares them and subtracts them, so the
  affine time scale is irrelevant).
* Python dicts with string keys are association lists `List (String × ℝ)`,
  looked up with `List.lookup` / a `get`-with-default helper.
* The reverse-geocoding collaborator is a parameter: for the aggregator a
  resolved-name function `g : ℚ → ℚ → String` standing for `get_place_name`,
  and for `get_place_name` itself a per-attempt response function
  `ℕ → GeoResponse` standing for `geolocator.reverse`.
-/

namespace GpxAnalyzer

/-- Raw time field of a `trkpt` element: `absent` models a missing `gpx:time`
child (or one with no text), `invalid` models text that makes
`datetime.fromisoformat` raise `ValueError`, `valid t` models a successfully
parsed timestamp (`t` in seconds). -/
inductive TimeField where
  | absent : TimeField
  | invalid : TimeField
  | valid : ℚ → TimeField
deriving DecidableEq

/-- A raw `trkpt` element: the `lat` / `lon` attributes may be missing
(`none`), and the time child is a `TimeField`. -/
structure RawPoint where
  lat : Option ℚ
  lon : Option ℚ
  time : TimeField
deriving DecidableEq

/-- Latitude as the script reads it: `float(point.get('lat', 0))` — a missing
attribute is read as `0`. -/
def readLat (p : RawPoint) : ℚ := p.lat.getD 0

/-- Longitude as the script reads it: `float(point.get('lon', 0))`. -/
def readLon (p : RawPoint) : ℚ := p.lon.getD 0

/-- The parsed timestamp of a point: `some t` exactly when the time element is
present and parseable; the `absent` and `invalid` cases both yield `none`
(the script skips the point, resp. hits the `except ValueError` arm). -/
def timeOf (p : RawPoint) : Option ℚ :=
  match p.time with
  | .valid t => some t
  | _ => none

/-- Degrees to radians, `math.radians`. -/
noncomputable def radians (x : ℝ) : ℝ := x * Real.pi / 180

/-- Embedding of `haversine_distance(lat1, lon1, lat2, lon2)`: great-circle
distance in kilometers via the haversine formula with Earth radius 6371 km. -/
noncomputable def haversine_distance (lat1 lon1 lat2 lon2 : ℚ) : ℝ :=
  let rlat1 := radians (lat1 : ℝ)
  let rlon1 := radians (lon1 : ℝ)
  let rlat2 := radians (lat2 : ℝ)
  let rlon2 := radians (lon2 : ℝ)
  let dlat := rlat2 - rlat1
  let dlon := rlon2 - rlon1
  let a := Real.sin (dlat / 2) ^ 2 +
    Real.cos rlat1 * Real.cos rlat2 * Real.sin (dlon / 2) ^ 2
  let c := 2 * Real.arcsin (Real.sqrt a)
  c * 6371

/-- The movement threshold `min_movement_threshold = 0.01` km. -/
noncomputable def min_movement_threshold : ℝ := 0.01

/-- A point retained by the movement filter: read coordinates plus a valid
timestamp. -/
structure MPoint where
  lat : ℚ
  lon : ℚ
  time : ℚ
deriving DecidableEq

/-- The point-collection loop of `calculate_moving_speed`: walk the segments
in file order and keep, with its read coordinates, every point whose time
element parses. -/
def collectPoints (segments : List (List RawPoint)) : List MPoint :=
  segments.flatMap fun seg =>
    seg.filterMap fun p => (timeOf p).map fun t => ⟨readLat p, readLon p, t⟩

/-- Comparison used by `all_points.sort(key=lambda x: x['time'])`; `mergeSort`
with this relation is, like Python's `list.sort`, a stable
ascending-by-timestamp sort. -/
def ptLE (a b : MPoint) : Bool := a.time ≤ b.time

/-- The qualification test of the accumulation loop:
`distance >= min_movement_threshold and 0 < time_diff <= 3600`. -/
def qualifiesPair (pq : MPoint × MPoint) : Prop :=
  min_movement_threshold ≤
      haversine_distance pq.1.lat pq.1.lon pq.2.lat pq.2.lon ∧
    0 < pq.2.time - pq.1.time ∧ pq.2.time - pq.1.time ≤ 3600

open Classical in
/-- The accumulation loop of `calculate_moving_speed`: fold over the
consecutive pairs of the (already sorted) point list, adding the haversine
distance (km) and the time difference (s) of every qualifying pair. -/
noncomputable def movingTotals (pts : List MPoint) : ℝ × ℚ :=
  (pts.zip pts.tail).foldl
    (fun acc pq =>
      if qualifiesPair pq then
        (acc.1 + haversine_distance pq.1.lat pq.1.lon pq.2.lat pq.2.lon,
         acc.2 + (pq.2.time - pq.1.time))
      else acc)
    (0, 0)

open Classical in
/-- Embedding of `calculate_moving_speed(segments, namespace)`; the returned
Python dict becomes an association list in the dict's literal order.  Note the
two return paths carry different key sets, exactly as in the source. -/
noncomputable def calculate_moving_speed (segments : List (List RawPoint)) :
    List (String × ℝ) :=
  let all_points := collectPoints segments
  if all_points.length < 2 then
    [("avg_speed_kmh", 0),
     ("avg_speed_mph", 0),
     ("total_distance_km", 0),
     ("total_distance_miles", 0),
     ("moving_time_seconds", 0),
     ("moving_time_hours", 0)]
  else
    let sorted := all_points.mergeSort ptLE
    let totals := movingTotals sorted
    let total_distance : ℝ := totals.1
    let total_moving_time : ℚ := totals.2
    let avg_speed_kmh : ℝ :=
      if 0 < total_moving_time then
        total_distance / (total_moving_time : ℝ) * 3600
      else 0
    let avg_speed_mph : ℝ :=
      if 0 < total_moving_time then avg_speed_kmh * 0.621371 else 0
    let moving_time_hours : ℝ :=
      if 0 < total_moving_time then (total_moving_time : ℝ) / 3600 else 0
    [("avg_speed_kmh", avg_speed_kmh),
     ("avg_speed_mph", avg_speed_mph),
     ("avg_speed_knots", avg_speed_kmh * 0.539957),
     ("total_distance_km", total_distance),
     ("total_distance_miles", total_distance * 0.621371),
     ("total_distance_nautical_miles", total_distance * 0.539957),
     ("moving_time_seconds", (total_moving_time : ℝ)),
     ("moving_time_hours", moving_time_hours)]

open Classical in
/-- Specification-side sum (claim C1): total moving distance as the sum of the
haversine distances of exactly the qualifying consecutive pairs. -/
noncomputable def specMovingDistance (pts : List MPoint) : ℝ :=
  ((pts.zip pts.tail).map fun pq =>
    if qualifiesPair pq then
      haversine_distance pq.1.lat pq.1.lon pq.2.lat pq.2.lon
    else 0).sum

open Classical in
/-- Specification-side sum (claim C1): total moving time as the sum of the
elapsed times of exactly the qualifying consecutive pairs. -/
noncomputable def specMovingTime (pts : List MPoint) : ℚ :=
  ((pts.zip pts.tail).map fun pq =>
    if qualifiesPair pq then pq.2.time - pq.1.time else 0).sum

/-- The timestamp-ascending stable sort of the timestamped points of a
segment list. -/
def sortedPoints (segments : List (List RawPoint)) : List MPoint :=
  (collectPoints segments).mergeSort ptLE

/-- The address record of a reverse-geocoding response (`location.raw['address']`):
each key the script reads, as an optional string. -/
structure Address where
  city : Option String
  town : Option String
  village : Option String
  hamlet : Option String
  suburb : Option String
  neighbourhood : Option String
  state : Option String
  province : Option String
  region : Option String
  country : Option String
deriving DecidableEq

/-- The literal country string the script compares against. -/
def unitedStates : String := "United States"

/-- The `state_abbrevs` table of `get_state_abbreviation`. -/
def state_abbrevs : List (String × String) :=
  [("Alabama", "AL"), ("Alaska", "AK"), ("Arizona", "AZ"), ("Arkansas", "AR"),
   ("California", "CA"), ("Colorado", "CO"), ("Connecticut", "CT"),
   ("Delaware", "DE"), ("Florida", "FL"), ("Georgia", "GA"), ("Hawaii", "HI"),
   ("Idaho", "ID"), ("Illinois", "IL"), ("Indiana", "IN"), ("Iowa", "IA"),
   ("Kansas", "KS"), ("Kentucky", "KY"), ("Louisiana", "LA"), ("Maine", "ME"),
   ("Maryland", "MD"), ("Massachusetts", "MA"), ("Michigan", "MI"),
   ("Minnesota", "MN"), ("Mississippi", "MS"), ("Missouri", "MO"),
   ("Montana", "MT"), ("Nebraska", "NE"), ("Nevada", "NV"),
   ("New Hampshire", "NH"), ("New Jersey", "NJ"), ("New Mexico", "NM"),
   ("New York", "NY"), ("North Carolina", "NC"), ("North Dakota", "ND"),
   ("Ohio", "OH"), ("Oklahoma", "OK"), ("Oregon", "OR"),
   ("Pennsylvania", "PA"), ("Rhode Island", "RI"), ("South Carolina", "SC"),
   ("South Dakota", "SD"), ("Tennessee", "TN"), ("Texas", "TX"),
   ("Utah", "UT"), ("Vermont", "VT"), ("Virginia", "VA"),
   ("Washington", "WA"), ("West Virginia", "WV"), ("Wisconsin", "WI"),
   ("Wyoming", "WY")]

/-- Embedding of `get_state_abbreviation(state_name)`: table lookup with the
full name itself as the default. -/
def get_state_abbreviation (state_name : String) : String :=
  (state_abbrevs.lookup state_name).getD state_name

/-- The place-part assembly of `get_place_name` (lines 92–127 of the source):
locality preference city/town/village/hamlet, then suburb, then
neighbourhood; state kept in full outside the United States and abbreviated
inside; country included unless it is the United States. -/
def placeParts (address : Address) : List String :=
  let city := address.city <|> address.town <|> address.village <|> address.hamlet
  let state := address.state <|> address.province <|> address.region
  let country := address.country
  let locality : List String :=
    match city with
    | some c => [c]
    | none =>
      match address.suburb with
      | some sb => [sb]
      | none =>
        match address.neighbourhood with
        | some nb => [nb]
        | none => []
  let regionPart : List String :=
    match state with
    | none => []
    | some st =>
      if country ≠ some unitedStates then [st] else [get_state_abbreviation st]
  let countryPart : List String :=
    match country with
    | none => []
    | some c => if c ≠ unitedStates then [c] else []
  locality ++ regionPart ++ countryPart

/-- Last four decimal digits, left-padded with zeros, for the `.4f` format. -/
def pad4 (r : ℕ) : String :=
  let s := toString r
  String.mk (List.replicate (4 - s.length) '0') ++ s

/-- Fixed-precision rendering of a coordinate, `f"{x:.4f}"`: value rounded to
four decimal digits (Python rounds the underlying binary float half-to-even;
a tie at the fourth decimal is not representable as a float, so plain
rounding agrees on every actual input). -/
def fmt4 (x : ℚ) : String :=
  let sign := if x < 0 then "-" else ""
  let n := (round (x * 10000)).natAbs
  sign ++ toString (n / 10000) ++ "." ++ pad4 (n % 10000)

/-- The coordinate fallback string `f"({lat:.4f}, {lon:.4f})"`. -/
def coordFallback (lat lon : ℚ) : String :=
  "(" ++ fmt4 lat ++ ", " ++ fmt4 lon ++ ")"

/-- One attempt's outcome of `geolocator.reverse`: a raised
`GeocoderTimedOut` / `GeocoderServiceError`, or a returned location that is
falsy (`none`), or a location carrying an address record. -/
inductive GeoResponse where
  | err : GeoResponse
  | ok : Option Address → GeoResponse
deriving DecidableEq

/-- Instrumented result of `get_place_name`: the returned string, the number
of `geolocator.reverse` attempts performed, and the list of the durations (in
seconds) of the `time.sleep` calls performed between attempts. -/
structure GeoOutcome where
  result : String
  attempts : ℕ
  sleeps : List ℕ
deriving DecidableEq

/-- The retry loop of `get_place_name`, from loop index `attempt`: an error
sleeps one second and retries unless it was the last attempt; a falsy
location retries without sleeping; an address record returns the joined
place parts, or the coordinate fallback when no part was collected; an
exhausted loop returns the coordinate fallback. -/
def gpnGo (resp : ℕ → GeoResponse) (lat lon : ℚ) (max_retries attempt : ℕ) :
    GeoOutcome :=
  if _h : attempt < max_retries then
    match resp attempt with
    | .err =>
      if attempt < max_retries - 1 then
        let rest := gpnGo resp lat lon max_retries (attempt + 1)
        ⟨rest.result, rest.attempts + 1, 1 :: rest.sleeps⟩
      else
        ⟨coordFallback lat lon, 1, []⟩
    | .ok none =>
      let rest := gpnGo resp lat lon max_retries (attempt + 1)
      ⟨rest.result, rest.attempts + 1, rest.sleeps⟩
    | .ok (some address) =>
      let parts := placeParts address
      ⟨if parts = [] then coordFallback lat lon
        else String.intercalate (", ") parts, 1, []⟩
  else
    ⟨coordFallback lat lon, 0, []⟩
termination_by max_retries - attempt

/-- Embedding of `get_place_name(lat, lon, geolocator, max_retries)`, with the
geocoding collaborator abstracted as the per-attempt response function
`resp`. -/
def get_place_name (resp : ℕ → GeoResponse) (lat lon : ℚ)
    (max_retries : ℕ) : GeoOutcome :=
  gpnGo resp lat lon max_retries 0

/-- A response carries usable address data when it is a location with an
address record from which at least one place part is collected. -/
def usableResp : GeoResponse → Bool
  | .ok (some a) => !(placeParts a).isEmpty
  | _ => false

/-- Start coordinates (lines 313–316): the first point of the first nonempty
segment, set once (`start_lat is None` guard) while walking segments in file
order. -/
def startCoord (segs : List (List RawPoint)) : Option (ℚ × ℚ) :=
  segs.foldl
    (fun acc seg =>
      match acc, seg with
      | none, p :: _ => some (readLat p, readLon p)
      | _, _ => acc)
    none

/-- End coordinates (lines 318–321): the last point of every nonempty segment
overwrites, leaving the last nonempty segment's last point. -/
def endCoord (segs : List (List RawPoint)) : Option (ℚ × ℚ) :=
  segs.foldl
    (fun acc seg =>
      match seg.getLast? with
      | some p => some (readLat p, readLon p)
      | none => acc)
    none

/-- Per-point update of the time-range pass (lines 324–334): a point whose
time element is missing or unparseable leaves the running range unchanged
(`except ValueError: pass`); otherwise the running min / max are updated. -/
def trUpd (ft : Option ℚ × Option ℚ) (p : RawPoint) : Option ℚ × Option ℚ :=
  match timeOf p with
  | none => ft
  | some t =>
    (match ft.1 with
     | none => some t
     | some f => if t < f then some t else some f,
     match ft.2 with
     | none => some t
     | some l => if l < t then some t else some l)

/-- Time-range pass (lines 323–334): running min / max over the parseable
timestamps of all points in file order. -/
def timeRange (segs : List (List RawPoint)) : Option ℚ × Option ℚ :=
  segs.foldl (fun acc seg => seg.foldl trUpd acc) (none, none)

/-- Running-minimum update, `if min_lat is None or lat < min_lat`. -/
def updMin (acc : Option ℚ) (x : ℚ) : Option ℚ :=
  match acc with
  | none => some x
  | some m => if x < m then some x else some m

/-- Running-maximum update, `if max_lat is None or lat > max_lat`. -/
def updMax (acc : Option ℚ) (x : ℚ) : Option ℚ :=
  match acc with
  | none => some x
  | some m => if m < x then some x else some m

/-- The four track bounds; all `None` when the track has no points. -/
structure Bounds where
  min_lat : Option ℚ
  max_lat : Option ℚ
  min_lon : Option ℚ
  max_lon : Option ℚ
deriving DecidableEq

/-- Per-point update of the bounds pass (lines 341–352): every point updates
all four running extremes with its read coordinates. -/
def boundsUpd (b : Bounds) (p : RawPoint) : Bounds :=
  { min_lat := updMin b.min_lat (readLat p),
    max_lat := updMax b.max_lat (readLat p),
    min_lon := updMin b.min_lon (readLon p),
    max_lon := updMax b.max_lon (readLon p) }

/-- Bounds pass (lines 336–352): running min / max of the read latitude and
longitude over all points of all segments in file order. -/
def boundsOf (segs : List (List RawPoint)) : Bounds :=
  segs.foldl (fun b seg => seg.foldl boundsUpd b) ⟨none, none, none, none⟩

/-- Result of the endpoint place resolution (lines 354–367): the two place
strings plus, as instrumentation, the list of coordinates passed to
`get_place_name`, in call order. -/
structure PlaceResolution where
  start_place : String
  end_place : String
  geocoded : List (ℚ × ℚ)
deriving DecidableEq

open Classical in
/-- Embedding of lines 354–367: resolve the start whenever it exists; resolve
the end separately only when the start is missing or the haversine distance
from start to end exceeds 0.5 km, otherwise reuse the start's resolved
name. -/
noncomputable def resolvePlaces (g : ℚ → ℚ → String)
    (sc ec : Option (ℚ × ℚ)) : PlaceResolution :=
  let start_place := match sc with
    | some s => g s.1 s.2
    | none => "Unknown"
  let startCalls : List (ℚ × ℚ) := match sc with
    | some s => [s]
    | none => []
  match ec with
  | none => ⟨start_place, "Unknown", startCalls⟩
  | some e =>
    match sc with
    | none => ⟨start_place, g e.1 e.2, startCalls ++ [e]⟩
    | some s =>
      if 0.5 < haversine_distance s.1 s.2 e.1 e.2 then
        ⟨start_place, g e.1 e.2, startCalls ++ [e]⟩
      else
        ⟨start_place, start_place, startCalls⟩

/-- Route label (lines 369–373). -/
def routeName (start_place end_place : String) : String :=
  if start_place = end_place then start_place
  else start_place ++ " - " ++ end_place

/-- The per-track record appended to `track_info` (lines 378–396), with the
geocoding instrumentation carried along. -/
structure TrackInfo where
  index : ℕ
  name : String
  description : String
  num_segments : ℕ
  total_points : ℕ
  first_time : Option ℚ
  last_time : Option ℚ
  start_location : Option (ℚ × ℚ)
  end_location : Option (ℚ × ℚ)
  start_place : String
  end_place : String
  route_name : String
  bounds : Bounds
  speed_stats : List (String × ℝ)
  geocoded : List (ℚ × ℚ)

/-- The per-track body of the `parse_gpx_file` loop (lines 288–396): one
aggregation pass over a track's segments, with the place resolver abstracted
as `g`. -/
noncomputable def aggregateTrack (g : ℚ → ℚ → String) (idx : ℕ)
    (nm ds : String) (segs : List (List RawPoint)) : TrackInfo :=
  let sc := startCoord segs
  let ec := endCoord segs
  let tr := timeRange segs
  let pr := resolvePlaces g sc ec
  { index := idx, name := nm, description := ds,
    num_segments := segs.length,
    total_points := (segs.map List.length).sum,
    first_time := tr.1, last_time := tr.2,
    start_location := sc, end_location := ec,
    start_place := pr.start_place, end_place := pr.end_place,
    route_name := routeName pr.start_place pr.end_place,
    bounds := boundsOf segs,
    speed_stats := calculate_moving_speed segs,
    geocoded := pr.geocoded }

/-- A CSV cell as handed to `csv.writer`: a string, a (rounded) float, or an
integer. -/
inductive Cell where
  | str : String → Cell
  | real : ℝ → Cell
  | int : ℤ → Cell

/-- The empty-string cell used for absent values. -/
def emptyCell : Cell := Cell.str ("")

/-- Python's `round(x, digits)` on the script's values (float half-to-even;
a tie is not representable as a float at 2 or 6 decimal digits, so plain
rounding agrees on every actual input). -/
noncomputable def roundTo (digits : ℕ) (x : ℝ) : ℝ :=
  ((round (x * 10 ^ digits) : ℤ) : ℝ) / 10 ^ digits

/-- The dict read `speed_stats.get(key, 0)` used by the exporters. -/
def lookupD (stats : List (String × ℝ)) (k : String) : ℝ :=
  (stats.lookup k).getD 0

/-- One data row of `export_tracks_to_csv` (lines 604–641), 21 cells in
header order; the `strftime` collaborator is the parameter `fmtTime`. -/
noncomputable def csvRow (fmtTime : ℚ → String) (t : TrackInfo) : List Cell :=
  let duration_hours : ℚ :=
    match t.first_time, t.last_time with
    | some f, some l => (l - f) / 3600
    | _, _ => 0
  let start_time : String :=
    match t.first_time with
    | some f => fmtTime f
    | none => ""
  let end_time : String :=
    match t.last_time with
    | some l => fmtTime l
    | none => ""
  let ss := t.speed_stats
  [Cell.int t.index,
   Cell.str t.name,
   Cell.str t.route_name,
   Cell.str t.start_place,
   Cell.str (if t.end_place ≠ t.start_place then t.end_place else ""),
   Cell.int t.num_segments,
   Cell.int t.total_points,
   Cell.str start_time,
   Cell.str end_time,
   if 0 < duration_hours then Cell.real (roundTo 2 (duration_hours : ℝ))
     else emptyCell,
   Cell.real (roundTo 2 (lookupD ss ("total_distance_km"))),
   Cell.real (roundTo 2 (lookupD ss ("total_distance_miles"))),
   Cell.real (roundTo 2 (lookupD ss ("total_distance_nautical_miles"))),
   Cell.real (roundTo 2 (lookupD ss ("moving_time_hours"))),
   Cell.real (roundTo 2 (lookupD ss ("avg_speed_kmh"))),
   Cell.real (roundTo 2 (lookupD ss ("avg_speed_mph"))),
   Cell.real (roundTo 2 (lookupD ss ("avg_speed_knots"))),
   match t.bounds.min_lat with
   | some v => Cell.real (roundTo 6 (v : ℝ))
   | none => emptyCell,
   match t.bounds.max_lat with
   | some v => Cell.real (roundTo 6 (v : ℝ))
   | none => emptyCell,
   match t.bounds.min_lon with
   | some v => Cell.real (roundTo 6 (v : ℝ))
   | none => emptyCell,
   match t.bounds.max_lon with
   | some v => Cell.real (roundTo 6 (v : ℝ))
   | none => emptyCell]

/-- Moving distance accumulated by the loop, as a function of the segments. -/
noncomputable def totalDist (segments : List (List RawPoint)) : ℝ :=
  (movingTotals (sortedPoints segments)).1

/-- Moving time accumulated by the loop, as a function of the segments. -/
noncomputable def totalTime (segments : List (List RawPoint)) : ℚ :=
  (movingTotals (sortedPoints segments)).2

open Classical in
/-- Average moving speed in km/h as the script computes it. -/
noncomputable def avgKmh (segments : List (List RawPoint)) : ℝ :=
  if 0 < totalTime segments then
    totalDist segments / (totalTime segments : ℝ) * 3600
  else 0

section Lemmas

open Classical

lemma movingFold_eq (l : List (MPoint × MPoint)) (d0 : ℝ) (t0 : ℚ) :
    l.foldl
        (fun acc pq =>
          if qualifiesPair pq then
            (acc.1 + haversine_distance pq.1.lat pq.1.lon pq.2.lat pq.2.lon,
             acc.2 + (pq.2.time - pq.1.time))
          else acc)
        (d0, t0) =
      (d0 + (l.map fun pq =>
          if qualifiesPair pq then
            haversine_distance pq.1.lat pq.1.lon pq.2.lat pq.2.lon
          else 0).sum,
       t0 + (l.map fun pq =>
          if qualifiesPair pq then pq.2.time - pq.1.time else 0).sum) := by
  induction l generalizing d0 t0 with
  | nil => simp
  | cons a l ih =>
    by_cases h : qualifiesPair a
    · simp only [List.foldl_cons, List.map_cons, List.sum_cons, if_pos h, ih,
        Prod.mk.injEq]
      constructor <;> ring
    · simp only [List.foldl_cons, List.map_cons, List.sum_cons, if_neg h, ih,
        Prod.mk.injEq]
      constructor <;> ring

lemma movingTotals_spec (pts : List MPoint) :
    movingTotals pts = (specMovingDistance pts, specMovingTime pts) := by
  unfold movingTotals specMovingDistance specMovingTime
  rw [movingFold_eq]
  simp

lemma zip_tail_nil {α : Type} (l : List α) (h : l.length < 2) :
    l.zip l.tail = [] := by
  match l with
  | [] => rfl
  | [a] => rfl
  | a :: b :: l => simp at h; omega

lemma cms_short (segments : List (List RawPoint))
    (h : (collectPoints segments).length < 2) :
    calculate_moving_speed segments =
      [("avg_speed_kmh", 0),
       ("avg_speed_mph", 0),
       ("total_distance_km", 0),
       ("total_distance_miles", 0),
       ("moving_time_seconds", 0),
       ("moving_time_hours", 0)] := by
  unfold calculate_moving_speed
  rw [if_pos h]

lemma cms_long (segments : List (List RawPoint))
    (h : 2 ≤ (collectPoints segments).length) :
    calculate_moving_speed segments =
      [("avg_speed_kmh", avgKmh segments),
       ("avg_speed_mph",
         if 0 < totalTime segments then avgKmh segments * 0.621371 else 0),
       ("avg_speed_knots", avgKmh segments * 0.539957),
       ("total_distance_km", totalDist segments),
       ("total_distance_miles", totalDist segments * 0.621371),
       ("total_distance_nautical_miles", totalDist segments * 0.539957),
       ("moving_time_seconds", ((totalTime segments : ℚ) : ℝ)),
       ("moving_time_hours",
         if 0 < totalTime segments then ((totalTime segments : ℚ) : ℝ) / 3600
         else 0)] := by
  unfold calculate_moving_speed
  rw [if_neg (Nat.not_lt.mpr h)]
  rfl

lemma sortedPoints_short (segments : List (List RawPoint))
    (h : (collectPoints segments).length < 2) :
    (sortedPoints segments).zip (sortedPoints segments).tail = [] := by
  apply zip_tail_nil
  rw [sortedPoints, List.length_mergeSort]
  exact h

end Lemmas

/-- C1: for every input point collection, the movement filter's
`total_distance_km` and `moving_time_seconds` equal the sums of haversine
distance and elapsed time over exactly those consecutive pairs of the
timestamp-ascending stable sort of the timestamped points that satisfy
d ≥ 0.01 km and 0 < Δt ≤ 3600 s; a pair failing either condition (for
instance one 3601 s apart, or one 5 m apart) contributes nothing to either
total. -/
theorem moving_totals_are_filtered_sums (segments : List (List RawPoint)) :
    (calculate_moving_speed segments).lookup ("total_distance_km")
        = some (specMovingDistance (sortedPoints segments)) ∧
      (calculate_moving_speed segments).lookup ("moving_time_seconds")
        = some ((specMovingTime (sortedPoints segments) : ℝ)) := by
  by_cases h : (collectPoints segments).length < 2
  · rw [cms_short segments h]
    have hz := sortedPoints_short segments h
    unfold specMovingDistance specMovingTime
    rw [hz]
    simp [List.lookup]
  · rw [cms_long segments (Nat.not_lt.mp h)]
    have hd : totalDist segments = specMovingDistance (sortedPoints segments) := by
      unfold totalDist
      rw [movingTotals_spec]
    have ht : totalTime segments = specMovingTime (sortedPoints segments) := by
      unfold totalTime
      rw [movingTotals_spec]
    simp [List.lookup, hd, ht]

/-- C5: the haversine distance is a pure total function of the two coordinate
pairs: it is symmetric, and it is zero on identical coordinates. -/
theorem haversine_symm_and_diag_zero (lat1 lon1 lat2 lon2 : ℚ) :
    haversine_distance lat1 lon1 lat2 lon2
        = haversine_distance lat2 lon2 lat1 lon1 ∧
      haversine_distance lat1 lon1 lat1 lon1 = 0 := by
  have hs : ∀ a b : ℝ, Real.sin ((a - b) / 2) ^ 2 = Real.sin ((b - a) / 2) ^ 2 := by
    intro a b
    have hab : (a - b) / 2 = -((b - a) / 2) := by ring
    rw [hab, Real.sin_neg]
    ring
  constructor
  · have key : ∀ x y z w : ℝ,
        Real.sin ((z - x) / 2) ^ 2 +
            Real.cos x * Real.cos z * Real.sin ((w - y) / 2) ^ 2 =
          Real.sin ((x - z) / 2) ^ 2 +
            Real.cos z * Real.cos x * Real.sin ((y - w) / 2) ^ 2 := by
      intro x y z w
      rw [hs z x, hs w y]
      ring
    simp only [haversine_distance]
    rw [key]
  · simp [haversine_distance]

/-- C3: with fewer than two validly timestamped points every statistic in the
returned record is zero. -/
theorem short_input_all_zero (segments : List (List RawPoint))
    (h : (collectPoints segments).length < 2) :
    ∀ kv ∈ calculate_moving_speed segments, kv.2 = 0 := by
  rw [cms_short segments h]
  intro kv hkv
  simp only [List.mem_cons, List.not_mem_nil, or_false] at hkv
  rcases hkv with rfl | rfl | rfl | rfl | rfl | rfl <;> rfl

/-- Witness for C3 at the empty segment list. -/
theorem short_input_all_zero_witness :
    (collectPoints []).length < 2 ∧
      ∀ kv ∈ calculate_moving_speed [], kv.2 = 0 :=
  ⟨by decide, short_input_all_zero [] (by decide)⟩

/-- A two-point, two-timestamp example track. -/
def exSegs2 : List (List RawPoint) :=
  [[⟨some 0, some 0, TimeField.valid 0⟩, ⟨some 1, some 1, TimeField.valid 10⟩]]

/-- Counterexample to C2 as stated: on the fewer-than-two-points path the
returned record has no `avg_speed_knots` entry at all (while `avg_speed_kmh`
is present and zero), so "every movement-filter result" satisfies the knots
equation is false — there is no knots value to satisfy it. -/
theorem speed_fields_counterexample :
    (calculate_moving_speed []).lookup ("avg_speed_knots") = none ∧
      (calculate_moving_speed []).lookup ("avg_speed_kmh") = some 0 :=
  ⟨rfl, rfl⟩

/-- C2 (amended to the at-least-two-timestamped-points path, where all the
derived fields exist): `avg_speed_kmh` is total distance over total moving
time times 3600 when the moving time is positive and 0 otherwise, and the
derived fields are the exact constant multiples ×0.621371 (mph, miles) and
×0.539957 (knots, nautical miles). -/
theorem speed_fields_constant_multiples (segments : List (List RawPoint))
    (h : 2 ≤ (collectPoints segments).length) :
    (calculate_moving_speed segments).lookup ("avg_speed_kmh")
        = some (avgKmh segments) ∧
      avgKmh segments =
        (if 0 < totalTime segments then
          totalDist segments / (totalTime segments : ℝ) * 3600
         else 0) ∧
      (calculate_moving_speed segments).lookup ("avg_speed_mph")
        = some (avgKmh segments * 0.621371) ∧
      (calculate_moving_speed segments).lookup ("avg_speed_knots")
        = some (avgKmh segments * 0.539957) ∧
      (calculate_moving_speed segments).lookup ("total_distance_km")
        = some (totalDist segments) ∧
      (calculate_moving_speed segments).lookup ("total_distance_miles")
        = some (totalDist segments * 0.621371) ∧
      (calculate_moving_speed segments).lookup ("total_distance_nautical_miles")
        = some (totalDist segments * 0.539957) := by
  rw [cms_long segments h]
  have hmph :
      (if 0 < totalTime segments then avgKmh segments * 0.621371 else 0)
        = avgKmh segments * 0.621371 := by
    by_cases ht : 0 < totalTime segments
    · rw [if_pos ht]
    · rw [if_neg ht]
      unfold avgKmh
      rw [if_neg ht]
      ring
  refine ⟨?_, rfl, ?_, ?_, ?_, ?_, ?_⟩ <;> simp [List.lookup, hmph]

/-- Witness for C2 (amended) at a concrete two-point track. -/
theorem speed_fields_constant_multiples_witness :
    2 ≤ (collectPoints exSegs2).length ∧
      (calculate_moving_speed exSegs2).lookup ("total_distance_km")
        = some (totalDist exSegs2) :=
  ⟨by decide, (speed_fields_constant_multiples exSegs2 (by decide)).2.2.2.2.1⟩

/-- C10: the fewer-than-two-points record has strictly fewer fields than the
normal-path record, omitting precisely `avg_speed_knots` and
`total_distance_nautical_miles`, which the normal path always carries;
a consumer must therefore supply a default to read them as zero. -/
theorem short_path_omits_fields (s1 s2 : List (List RawPoint))
    (h1 : (collectPoints s1).length < 2)
    (h2 : 2 ≤ (collectPoints s2).length) :
    (calculate_moving_speed s1).length < (calculate_moving_speed s2).length ∧
      (calculate_moving_speed s1).lookup ("avg_speed_knots") = none ∧
      (calculate_moving_speed s1).lookup ("total_distance_nautical_miles")
        = none ∧
      (calculate_moving_speed s2).lookup ("avg_speed_knots")
        = some (avgKmh s2 * 0.539957) ∧
      (calculate_moving_speed s2).lookup ("total_distance_nautical_miles")
        = some (totalDist s2 * 0.539957) := by
  rw [cms_short s1 h1, cms_long s2 h2]
  refine ⟨by simp, ?_, ?_, ?_, ?_⟩ <;> simp [List.lookup]

/-- Witness for C10 at the empty track versus the two-point track. -/
theorem short_path_omits_fields_witness :
    (collectPoints []).length < 2 ∧
      2 ≤ (collectPoints exSegs2).length ∧
      (calculate_moving_speed []).length
        < (calculate_moving_speed exSegs2).length :=
  ⟨by decide, by decide,
    (short_path_omits_fields [] exSegs2 (by decide) (by decide)).1⟩

/-- A point whose `lat` attribute is missing. -/
def noLatPoint : RawPoint := ⟨none, some 5, TimeField.valid 0⟩

/-- An ordinary fully populated point. -/
def plainPoint : RawPoint := ⟨some 10, some 6, TimeField.valid 10⟩

/-- A point whose time element does not parse. -/
def badTimePoint : RawPoint := ⟨some 3, some 3, TimeField.invalid⟩

/-- Counterexample to C4 as stated: a point with a missing `lat` attribute is
not skipped — `float(point.get('lat', 0))` reads it as latitude 0, so it does
contribute to the bounds: with the point present `min_lat` is 0, with it
removed `min_lat` is 10, and the two bounds records differ. -/
theorem missing_coordinate_counterexample :
    (boundsOf [[noLatPoint, plainPoint]]).min_lat = some 0 ∧
      (boundsOf [[plainPoint]]).min_lat = some 10 ∧
      boundsOf [[noLatPoint, plainPoint]] ≠ boundsOf [[plainPoint]] := by
  decide

/-- C4 (amended): a point with an unparseable timestamp is skipped only from
the time-based statistics — deleting it anywhere changes neither the movement
filter's result nor the time range — while it still counts toward bounds and
point totals; and a missing `lat` / `lon` attribute does not cause a skip:
the absent coordinate is read as 0 and the point participates with it. -/
theorem per_point_failure_handling (segs1 segs2 : List (List RawPoint))
    (pre post : List RawPoint) (p : RawPoint) (h : timeOf p = none) :
    calculate_moving_speed (segs1 ++ (pre ++ p :: post) :: segs2)
        = calculate_moving_speed (segs1 ++ (pre ++ post) :: segs2) ∧
      timeRange (segs1 ++ (pre ++ p :: post) :: segs2)
        = timeRange (segs1 ++ (pre ++ post) :: segs2) ∧
      (∀ lo tf, readLat ⟨none, lo, tf⟩ = 0) ∧
      (∀ la tf, readLon ⟨la, none, tf⟩ = 0) := by
  have hc : collectPoints (segs1 ++ (pre ++ p :: post) :: segs2)
      = collectPoints (segs1 ++ (pre ++ post) :: segs2) := by
    unfold collectPoints
    simp only [List.flatMap_append, List.flatMap_cons,
      List.filterMap_append, List.filterMap_cons, h, Option.map_none,
      Option.map_none']
  refine ⟨?_, ?_, fun lo tf => rfl, fun la tf => rfl⟩
  · unfold calculate_moving_speed
    rw [hc]
  · have hskip : ∀ acc : Option ℚ × Option ℚ, trUpd acc p = acc := by
      intro acc
      unfold trUpd
      rw [h]
    unfold timeRange
    rw [List.foldl_append, List.foldl_append, List.foldl_cons, List.foldl_cons]
    have hmid : ∀ acc : Option ℚ × Option ℚ,
        (pre ++ p :: post).foldl trUpd acc = (pre ++ post).foldl trUpd acc := by
      intro acc
      rw [List.foldl_append, List.foldl_append, List.foldl_cons, hskip]
    simp only [hmid]

/-- Witness for C4 (amended) at a concrete invalid-timestamp point. -/
theorem per_point_failure_handling_witness :
    timeOf badTimePoint = none ∧
      timeRange [[badTimePoint, plainPoint]] = timeRange [[plainPoint]] :=
  ⟨by decide,
    (per_point_failure_handling [] [] [] [plainPoint] badTimePoint
      (by decide)).2.1⟩

open Classical in
lemma resolvePlaces_some (g : ℚ → ℚ → String) (s e : ℚ × ℚ) :
    resolvePlaces g (some s) (some e) =
      if 0.5 < haversine_distance s.1 s.2 e.1 e.2 then
        ⟨g s.1 s.2, g e.1 e.2, [s, e]⟩
      else ⟨g s.1 s.2, g s.1 s.2, [s]⟩ := rfl

/-- C6: when a track has both start and end coordinates, the aggregator
always resolves the start coordinate; it performs a separate resolution of
the end coordinate exactly when the haversine distance from start to end
exceeds 0.5 km (the geocoding call list is then `[s, e]`, otherwise `[s]`),
and otherwise the end place is exactly the start's resolved name. -/
theorem end_resolution_iff_far (g : ℚ → ℚ → String) (idx : ℕ)
    (nm ds : String) (segs : List (List RawPoint)) (s e : ℚ × ℚ)
    (hs : startCoord segs = some s) (he : endCoord segs = some e) :
    (aggregateTrack g idx nm ds segs).start_place = g s.1 s.2 ∧
      (0.5 < haversine_distance s.1 s.2 e.1 e.2 →
        (aggregateTrack g idx nm ds segs).geocoded = [s, e] ∧
          (aggregateTrack g idx nm ds segs).end_place = g e.1 e.2) ∧
      (haversine_distance s.1 s.2 e.1 e.2 ≤ 0.5 →
        (aggregateTrack g idx nm ds segs).geocoded = [s] ∧
          (aggregateTrack g idx nm ds segs).end_place
            = (aggregateTrack g idx nm ds segs).start_place) := by
  unfold aggregateTrack
  simp only [hs, he, resolvePlaces_some]
  by_cases hfar : 0.5 < haversine_distance s.1 s.2 e.1 e.2
  · rw [if_pos hfar]
    exact ⟨rfl, fun _ => ⟨rfl, rfl⟩,
      fun hle => absurd hfar (not_lt.mpr hle)⟩
  · rw [if_neg hfar]
    exact ⟨rfl, fun hf => absurd hf hfar, fun _ => ⟨rfl, rfl⟩⟩

/-- Witness for C6 at the two-point example track. -/
theorem end_resolution_iff_far_witness :
    startCoord exSegs2 = some (0, 0) ∧
      endCoord exSegs2 = some (1, 1) ∧
      (aggregateTrack (fun _ _ => "X") 1 ("n") ("d") exSegs2).start_place
        = "X" :=
  ⟨by decide, by decide,
    (end_resolution_iff_far (fun _ _ => "X") 1 ("n") ("d") exSegs2 (0, 0)
      (1, 1) (by decide) (by decide)).1⟩

lemma gpnGo_spec (resp : ℕ → GeoResponse) (lat lon : ℚ) (mr : ℕ) :
    ∀ rem attempt, mr - attempt = rem →
      (gpnGo resp lat lon mr attempt).attempts ≤ rem ∧
        (attempt < mr → 1 ≤ (gpnGo resp lat lon mr attempt).attempts) ∧
        (∀ d ∈ (gpnGo resp lat lon mr attempt).sleeps, d = 1) ∧
        (gpnGo resp lat lon mr attempt).sleeps.length
          ≤ (gpnGo resp lat lon mr attempt).attempts - 1 ∧
        ((∀ i, attempt ≤ i → i < mr → usableResp (resp i) = false) →
          (gpnGo resp lat lon mr attempt).result = coordFallback lat lon) := by
  intro rem
  induction rem with
  | zero =>
    intro attempt h
    have hnot : ¬ attempt < mr := by omega
    rw [gpnGo, dif_neg hnot]
    exact ⟨Nat.le_refl 0, fun hlt => absurd hlt hnot, by simp, by simp,
      fun _ => rfl⟩
  | succ n ih =>
    intro attempt h
    have hlt : attempt < mr := by omega
    rw [gpnGo, dif_pos hlt]
    cases hresp : resp attempt with
    | err =>
      by_cases hlast : attempt < mr - 1
      · rw [if_pos hlast]
        dsimp only
        obtain ⟨ha, hb, hc, hd, he⟩ := ih (attempt + 1) (by omega)
        have hb1 : 1 ≤ (gpnGo resp lat lon mr (attempt + 1)).attempts :=
          hb (by omega)
        refine ⟨by omega, fun _ => by omega, ?_, ?_, ?_⟩
        · intro d hd2
          rcases List.mem_cons.mp hd2 with rfl | hmem
          · rfl
          · exact hc d hmem
        · show (gpnGo resp lat lon mr (attempt + 1)).sleeps.length + 1
            ≤ (gpnGo resp lat lon mr (attempt + 1)).attempts + 1 - 1
          omega
        · intro hall
          exact he fun i h1 h2 => hall i (by omega) h2
      · rw [if_neg hlast]
        dsimp only
        exact ⟨by omega, fun _ => Nat.le_refl 1, by simp, by simp,
          fun _ => rfl⟩
    | ok lo =>
      cases lo with
      | none =>
        dsimp only
        obtain ⟨ha, hb, hc, hd, he⟩ := ih (attempt + 1) (by omega)
        refine ⟨by omega, fun _ => by omega, hc, ?_, ?_⟩
        · show (gpnGo resp lat lon mr (attempt + 1)).sleeps.length
            ≤ (gpnGo resp lat lon mr (attempt + 1)).attempts + 1 - 1
          omega
        · intro hall
          exact he fun i h1 h2 => hall i (by omega) h2
      | some address =>
        dsimp only
        refine ⟨by omega, fun _ => Nat.le_refl 1, by simp, by simp, ?_⟩
        intro hall
        have hu := hall attempt (Nat.le_refl attempt) hlt
        rw [hresp] at hu
        have hparts : placeParts address = [] := by
          have : (placeParts address).isEmpty = true := by
            simpa [usableResp] using hu
          exact List.isEmpty_iff.mp this
        show (if placeParts address = [] then coordFallback lat lon
          else String.intercalate (", ") (placeParts address)) = _
        rw [if_pos hparts]

/-- C7: the place resolver performs at most 3 geocoding attempts, every sleep
recorded between attempts lasts exactly 1 second and there are strictly fewer
sleeps than attempts, and whenever no attempt yields usable address data
(every attempt raises or returns no usable address) the result is the
4-decimal coordinate fallback string; the function is total, so it never
raises or aborts track processing. -/
theorem geocode_retry_and_fallback (resp : ℕ → GeoResponse) (lat lon : ℚ) :
    (get_place_name resp lat lon 3).attempts ≤ 3 ∧
      (∀ d ∈ (get_place_name resp lat lon 3).sleeps, d = 1) ∧
      (get_place_name resp lat lon 3).sleeps.length
        < (get_place_name resp lat lon 3).attempts ∧
      ((∀ i, i < 3 → usableResp (resp i) = false) →
        (get_place_name resp lat lon 3).result = coordFallback lat lon) := by
  obtain ⟨ha, hb, hc, hd, he⟩ := gpnGo_spec resp lat lon 3 3 0 rfl
  have hb1 := hb (by omega)
  exact ⟨ha, hc, by unfold get_place_name; omega,
    fun hall => he fun i h1 h2 => hall i h2⟩

/-- Witness for C7 with every attempt raising a geocoder error. -/
theorem geocode_retry_and_fallback_witness :
    (∀ i, i < 3 → usableResp ((fun _ => GeoResponse.err) i) = false) ∧
      (get_place_name (fun _ => GeoResponse.err) 1 2 3).result
        = coordFallback 1 2 :=
  ⟨by decide,
    (geocode_retry_and_fallback (fun _ => GeoResponse.err) 1 2).2.2.2
      (by decide)⟩

lemma foldl_updMin_some (l : List ℚ) :
    ∀ m0 : ℚ, ∃ m, l.foldl updMin (some m0) = some m ∧
      (m = m0 ∨ m ∈ l) ∧ m ≤ m0 ∧ ∀ x ∈ l, m ≤ x := by
  induction l with
  | nil =>
    intro m0
    exact ⟨m0, rfl, Or.inl rfl, le_refl m0, by simp⟩
  | cons a l ih =>
    intro m0
    rw [List.foldl_cons]
    by_cases hc : a < m0
    · rw [show updMin (some m0) a = some a from by simp [updMin, hc]]
      obtain ⟨m, h1, h2, h3, h4⟩ := ih a
      refine ⟨m, h1, ?_, le_trans h3 (le_of_lt hc), ?_⟩
      · rcases h2 with rfl | hm
        · exact Or.inr (List.mem_cons_self _ _)
        · exact Or.inr (List.mem_cons_of_mem _ hm)
      · intro x hx
        rcases List.mem_cons.mp hx with rfl | hx2
        · exact h3
        · exact h4 x hx2
    · rw [show updMin (some m0) a = some m0 from by simp [updMin, hc]]
      obtain ⟨m, h1, h2, h3, h4⟩ := ih m0
      refine ⟨m, h1, ?_, h3, ?_⟩
      · rcases h2 with rfl | hm
        · exact Or.inl rfl
        · exact Or.inr (List.mem_cons_of_mem _ hm)
      · intro x hx
        rcases List.mem_cons.mp hx with rfl | hx2
        · exact le_trans h3 (not_lt.mp hc)
        · exact h4 x hx2

lemma foldl_updMin_none (l : List ℚ) (h : l ≠ []) :
    ∃ m, l.foldl updMin none = some m ∧ m ∈ l ∧ ∀ x ∈ l, m ≤ x := by
  match l with
  | [] => exact absurd rfl h
  | a :: l =>
    rw [List.foldl_cons, show updMin none a = some a from rfl]
    obtain ⟨m, h1, h2, h3, h4⟩ := foldl_updMin_some l a
    refine ⟨m, h1, ?_, ?_⟩
    · rcases h2 with rfl | hm
      · exact List.mem_cons_self _ _
      · exact List.mem_cons_of_mem _ hm
    · intro x hx
      rcases List.mem_cons.mp hx with rfl | hx2
      · exact h3
      · exact h4 x hx2

lemma foldl_updMax_some (l : List ℚ) :
    ∀ m0 : ℚ, ∃ m, l.foldl updMax (some m0) = some m ∧
      (m = m0 ∨ m ∈ l) ∧ m0 ≤ m ∧ ∀ x ∈ l, x ≤ m := by
  induction l with
  | nil =>
    intro m0
    exact ⟨m0, rfl, Or.inl rfl, le_refl m0, by simp⟩
  | cons a l ih =>
    intro m0
    rw [List.foldl_cons]
    by_cases hc : m0 < a
    · rw [show updMax (some m0) a = some a from by simp [updMax, hc]]
      obtain ⟨m, h1, h2, h3, h4⟩ := ih a
      refine ⟨m, h1, ?_, le_trans (le_of_lt hc) h3, ?_⟩
      · rcases h2 with rfl | hm
        · exact Or.inr (List.mem_cons_self _ _)
        · exact Or.inr (List.mem_cons_of_mem _ hm)
      · intro x hx
        rcases List.mem_cons.mp hx with rfl | hx2
        · exact h3
        · exact h4 x hx2
    · rw [show updMax (some m0) a = some m0 from by simp [updMax, hc]]
      obtain ⟨m, h1, h2, h3, h4⟩ := ih m0
      refine ⟨m, h1, ?_, h3, ?_⟩
      · rcases h2 with rfl | hm
        · exact Or.inl rfl
        · exact Or.inr (List.mem_cons_of_mem _ hm)
      · intro x hx
        rcases List.mem_cons.mp hx with rfl | hx2
        · exact le_trans (not_lt.mp hc) h3
        · exact h4 x hx2

lemma foldl_updMax_none (l : List ℚ) (h : l ≠ []) :
    ∃ m, l.foldl updMax none = some m ∧ m ∈ l ∧ ∀ x ∈ l, x ≤ m := by
  match l with
  | [] => exact absurd rfl h
  | a :: l =>
    rw [List.foldl_cons, show updMax none a = some a from rfl]
    obtain ⟨m, h1, h2, h3, h4⟩ := foldl_updMax_some l a
    refine ⟨m, h1, ?_, ?_⟩
    · rcases h2 with rfl | hm
      · exact List.mem_cons_self _ _
      · exact List.mem_cons_of_mem _ hm
    · intro x hx
      rcases List.mem_cons.mp hx with rfl | hx2
      · exact h3
      · exact h4 x hx2

lemma boundsUpd_min_lat (pts : List RawPoint) :
    ∀ b : Bounds, (pts.foldl boundsUpd b).min_lat
      = (pts.map readLat).foldl updMin b.min_lat := by
  induction pts with
  | nil => intro b; rfl
  | cons p pts ih =>
    intro b
    rw [List.foldl_cons, List.map_cons, List.foldl_cons, ih]
    rfl

lemma boundsUpd_max_lat (pts : List RawPoint) :
    ∀ b : Bounds, (pts.foldl boundsUpd b).max_lat
      = (pts.map readLat).foldl updMax b.max_lat := by
  induction pts with
  | nil => intro b; rfl
  | cons p pts ih =>
    intro b
    rw [List.foldl_cons, List.map_cons, List.foldl_cons, ih]
    rfl

lemma boundsUpd_min_lon (pts : List RawPoint) :
    ∀ b : Bounds, (pts.foldl boundsUpd b).min_lon
      = (pts.map readLon).foldl updMin b.min_lon := by
  induction pts with
  | nil => intro b; rfl
  | cons p pts ih =>
    intro b
    rw [List.foldl_cons, List.map_cons, List.foldl_cons, ih]
    rfl

lemma boundsUpd_max_lon (pts : List RawPoint) :
    ∀ b : Bounds, (pts.foldl boundsUpd b).max_lon
      = (pts.map readLon).foldl updMax b.max_lon := by
  induction pts with
  | nil => intro b; rfl
  | cons p pts ih =>
    intro b
    rw [List.foldl_cons, List.map_cons, List.foldl_cons, ih]
    rfl

lemma boundsOf_flatten (segs : List (List RawPoint)) :
    boundsOf segs = segs.flatten.foldl boundsUpd ⟨none, none, none, none⟩ := by
  unfold boundsOf
  rw [List.foldl_flatten]

/-- C8: for every track with at least one point, the computed bounds form the
minimal axis-aligned rectangle containing all the track's points (as read,
with a missing attribute read as 0): every read latitude lies between
`min_lat` and `max_lat`, every read longitude between `min_lon` and
`max_lon`, and each of the four bound values is attained by some point. -/
theorem bounds_minimal_rectangle (g : ℚ → ℚ → String) (idx : ℕ)
    (nm ds : String) (segs : List (List RawPoint))
    (h : segs.flatten ≠ []) :
    ∃ mla mxa mlo mxo,
      (aggregateTrack g idx nm ds segs).bounds
          = ⟨some mla, some mxa, some mlo, some mxo⟩ ∧
        (∀ p ∈ segs.flatten,
          mla ≤ readLat p ∧ readLat p ≤ mxa ∧
            mlo ≤ readLon p ∧ readLon p ≤ mxo) ∧
        (∃ p ∈ segs.flatten, readLat p = mla) ∧
        (∃ p ∈ segs.flatten, readLat p = mxa) ∧
        (∃ p ∈ segs.flatten, readLon p = mlo) ∧
        (∃ p ∈ segs.flatten, readLon p = mxo) := by
  have hb : (aggregateTrack g idx nm ds segs).bounds = boundsOf segs := rfl
  rw [hb, boundsOf_flatten]
  have hlat : segs.flatten.map readLat ≠ [] := by
    simpa using h
  have hlon : segs.flatten.map readLon ≠ [] := by
    simpa using h
  obtain ⟨mla, e1, mem1, lb1⟩ := foldl_updMin_none (segs.flatten.map readLat) hlat
  obtain ⟨mxa, e2, mem2, ub2⟩ := foldl_updMax_none (segs.flatten.map readLat) hlat
  obtain ⟨mlo, e3, mem3, lb3⟩ := foldl_updMin_none (segs.flatten.map readLon) hlon
  obtain ⟨mxo, e4, mem4, ub4⟩ := foldl_updMax_none (segs.flatten.map readLon) hlon
  have f1 : (segs.flatten.foldl boundsUpd ⟨none, none, none, none⟩).min_lat
      = some mla := by
    rw [boundsUpd_min_lat]
    exact e1
  have f2 : (segs.flatten.foldl boundsUpd ⟨none, none, none, none⟩).max_lat
      = some mxa := by
    rw [boundsUpd_max_lat]
    exact e2
  have f3 : (segs.flatten.foldl boundsUpd ⟨none, none, none, none⟩).min_lon
      = some mlo := by
    rw [boundsUpd_min_lon]
    exact e3
  have f4 : (segs.flatten.foldl boundsUpd ⟨none, none, none, none⟩).max_lon
      = some mxo := by
    rw [boundsUpd_max_lon]
    exact e4
  refine ⟨mla, mxa, mlo, mxo, ?_, ?_, ?_, ?_, ?_, ?_⟩
  · calc segs.flatten.foldl boundsUpd ⟨none, none, none, none⟩
        = ⟨(segs.flatten.foldl boundsUpd ⟨none, none, none, none⟩).min_lat,
           (segs.flatten.foldl boundsUpd ⟨none, none, none, none⟩).max_lat,
           (segs.flatten.foldl boundsUpd ⟨none, none, none, none⟩).min_lon,
           (segs.flatten.foldl boundsUpd ⟨none, none, none, none⟩).max_lon⟩ :=
          rfl
      _ = ⟨some mla, some mxa, some mlo, some mxo⟩ := by rw [f1, f2, f3, f4]
  · intro p hp
    exact ⟨lb1 _ (List.mem_map_of_mem readLat hp),
      ub2 _ (List.mem_map_of_mem readLat hp),
      lb3 _ (List.mem_map_of_mem readLon hp),
      ub4 _ (List.mem_map_of_mem readLon hp)⟩
  · obtain ⟨p, hp, he⟩ := List.mem_map.mp mem1
    exact ⟨p, hp, he⟩
  · obtain ⟨p, hp, he⟩ := List.mem_map.mp mem2
    exact ⟨p, hp, he⟩
  · obtain ⟨p, hp, he⟩ := List.mem_map.mp mem3
    exact ⟨p, hp, he⟩
  · obtain ⟨p, hp, he⟩ := List.mem_map.mp mem4
    exact ⟨p, hp, he⟩

lemma csvRow_no_time (fmtTime : ℚ → String) (t : TrackInfo)
    (h1 : t.first_time = none) (h2 : t.last_time = none) :
    csvRow fmtTime t =
      [Cell.int t.index,
       Cell.str t.name,
       Cell.str t.route_name,
       Cell.str t.start_place,
       Cell.str (if t.end_place ≠ t.start_place then t.end_place else ""),
       Cell.int t.num_segments,
       Cell.int t.total_points,
       Cell.str (""),
       Cell.str (""),
       Cell.str (""),
       Cell.real (roundTo 2 (lookupD t.speed_stats ("total_distance_km"))),
       Cell.real (roundTo 2 (lookupD t.speed_stats ("total_distance_miles"))),
       Cell.real (roundTo 2
         (lookupD t.speed_stats ("total_distance_nautical_miles"))),
       Cell.real (roundTo 2 (lookupD t.speed_stats ("moving_time_hours"))),
       Cell.real (roundTo 2 (lookupD t.speed_stats ("avg_speed_kmh"))),
       Cell.real (roundTo 2 (lookupD t.speed_stats ("avg_speed_mph"))),
       Cell.real (roundTo 2 (lookupD t.speed_stats ("avg_speed_knots"))),
       match t.bounds.min_lat with
       | some v => Cell.real (roundTo 6 (v : ℝ))
       | none => emptyCell,
       match t.bounds.max_lat with
       | some v => Cell.real (roundTo 6 (v : ℝ))
       | none => emptyCell,
       match t.bounds.min_lon with
       | some v => Cell.real (roundTo 6 (v : ℝ))
       | none => emptyCell,
       match t.bounds.max_lon with
       | some v => Cell.real (roundTo 6 (v : ℝ))
       | none => emptyCell] := by
  unfold csvRow
  rw [h1, h2]
  dsimp only
  rw [if_neg (lt_irrefl (0 : ℚ))]
  rfl

/-- C9: in the CSV export, a track with no valid timestamps renders the
Start_Time, End_Time and Duration_Hours cells (indices 7, 8, 9) as the empty
string — not as zero and not as a null marker; absent bound values render as
empty strings while present ones are rounded to 6 decimals (indices 17–20),
and the numeric statistics cells (indices 10–16) are rounded to 2 decimals. -/
theorem csv_empty_fields_and_rounding (fmtTime : ℚ → String) (t : TrackInfo)
    (h1 : t.first_time = none) (h2 : t.last_time = none) :
    (csvRow fmtTime t)[7]? = some (Cell.str ("")) ∧
      (csvRow fmtTime t)[8]? = some (Cell.str ("")) ∧
      (csvRow fmtTime t)[9]? = some (Cell.str ("")) ∧
      (csvRow fmtTime t)[10]? =
        some (Cell.real (roundTo 2
          (lookupD t.speed_stats ("total_distance_km")))) ∧
      (csvRow fmtTime t)[11]? =
        some (Cell.real (roundTo 2
          (lookupD t.speed_stats ("total_distance_miles")))) ∧
      (csvRow fmtTime t)[12]? =
        some (Cell.real (roundTo 2
          (lookupD t.speed_stats ("total_distance_nautical_miles")))) ∧
      (csvRow fmtTime t)[13]? =
        some (Cell.real (roundTo 2
          (lookupD t.speed_stats ("moving_time_hours")))) ∧
      (csvRow fmtTime t)[14]? =
        some (Cell.real (roundTo 2
          (lookupD t.speed_stats ("avg_speed_kmh")))) ∧
      (csvRow fmtTime t)[15]? =
        some (Cell.real (roundTo 2
          (lookupD t.speed_stats ("avg_speed_mph")))) ∧
      (csvRow fmtTime t)[16]? =
        some (Cell.real (roundTo 2
          (lookupD t.speed_stats ("avg_speed_knots")))) ∧
      (t.bounds.min_lat = none →
        (csvRow fmtTime t)[17]? = some (Cell.str (""))) ∧
      (∀ v, t.bounds.min_lat = some v →
        (csvRow fmtTime t)[17]? = some (Cell.real (roundTo 6 (v : ℝ)))) ∧
      (t.bounds.max_lat = none →
        (csvRow fmtTime t)[18]? = some (Cell.str (""))) ∧
      (∀ v, t.bounds.max_lat = some v →
        (csvRow fmtTime t)[18]? = some (Cell.real (roundTo 6 (v : ℝ)))) ∧
      (t.bounds.min_lon = none →
        (csvRow fmtTime t)[19]? = some (Cell.str (""))) ∧
      (∀ v, t.bounds.min_lon = some v →
        (csvRow fmtTime t)[19]? = some (Cell.real (roundTo 6 (v : ℝ)))) ∧
      (t.bounds.max_lon = none →
        (csvRow fmtTime t)[20]? = some (Cell.str (""))) ∧
      (∀ v, t.bounds.max_lon = some v →
        (csvRow fmtTime t)[20]? = some (Cell.real (roundTo 6 (v : ℝ)))) := by
  rw [csvRow_no_time fmtTime t h1 h2]
  refine ⟨rfl, rfl, rfl, rfl, rfl, rfl, rfl, rfl, rfl, rfl,
    ?_, ?_, ?_, ?_, ?_, ?_, ?_, ?_⟩
  · intro hb
    rw [hb]
    rfl
  · intro v hb
    rw [hb]
    rfl
  · intro hb
    rw [hb]
    rfl
  · intro v hb
    rw [hb]
    rfl
  · intro hb
    rw [hb]
    rfl
  · intro v hb
    rw [hb]
    rfl
  · intro hb
    rw [hb]
    rfl
  · intro v hb
    rw [hb]
    rfl

/-- A concrete aggregated track with no valid timestamps. -/
def exTrackNoTime : TrackInfo :=
  { index := 1, name := "t", description := "",
    num_segments := 1, total_points := 1,
    first_time := none, last_time := none,
    start_location := some (0, 0), end_location := some (0, 0),
    start_place := "p", end_place := "p", route_name := "p",
    bounds := ⟨some 1, some 2, some 3, some 4⟩,
    speed_stats := [], geocoded := [] }

/-- Witness for C9 at a concrete timestamp-free track. -/
theorem csv_empty_fields_and_rounding_witness :
    exTrackNoTime.first_time = none ∧
      exTrackNoTime.last_time = none ∧
      (csvRow (fun _ => "") exTrackNoTime)[9]? = some (Cell.str ("")) :=
  ⟨rfl, rfl,
    (csv_empty_fields_and_rounding (fun _ => "") exTrackNoTime rfl
      rfl).2.2.1⟩

/-- Witness for C8 at the two-point example track. -/
theorem bounds_minimal_rectangle_witness :
    exSegs2.flatten ≠ [] ∧
      ∃ mla mxa mlo mxo,
        (aggregateTrack (fun _ _ => "Y") 2 ("n") ("d") exSegs2).bounds
            = ⟨some mla, some mxa, some mlo, some mxo⟩ ∧
          (∀ p ∈ exSegs2.flatten,
            mla ≤ readLat p ∧ readLat p ≤ mxa ∧
              mlo ≤ readLon p ∧ readLon p ≤ mxo) ∧
          (∃ p ∈ exSegs2.flatten, readLat p = mla) ∧
          (∃ p ∈ exSegs2.flatten, readLat p = mxa) ∧
          (∃ p ∈ exSegs2.flatten, readLon p = mlo) ∧
          (∃ p ∈ exSegs2.flatten, readLon p = mxo) :=
  ⟨by decide,
    bounds_minimal_rectangle (fun _ _ => "Y") 2 ("n") ("d") exSegs2
      (by decide)⟩

end GpxAnalyzer
